import Mathlib

/-!
Shallow embedding of the receipt parsing module
`src/App/src/receipt_agent/receipt_tools.py` of the Smart-Appetite-Manager
repository, together with theorems about the parsing pipeline.

Strings are modelled as `List Char`; the numeric values produced by the
weight extractor are modelled as rationals.  The Python regular expressions
used by the module are embedded as deterministic left-to-right scanners:
for each of the three patterns every regex backtracking step provably fails
(digits, whitespace and the unit alternatives have pairwise disjoint first
characters), so greedy scanning computes exactly the Python match.
-/

/-- Whitespace recognised by Python `str.strip` and the regex class of
whitespace characters (ASCII / latin-1 range; exotic Unicode space
characters are not modelled). -/
def pyIsSpace (c : Char) : Bool :=
  c == ' ' || c == '\t' || c == '\n' || c == '\r' || c == '\x0b' || c == '\x0c' ||
  c == '\x1c' || c == '\x1d' || c == '\x1e' || c == '\x1f' || c == '\x85'

/-- Regex word character (ASCII fragment): letters, digits, underscore. -/
def isWordC (c : Char) : Bool := c.isAlpha || c.isDigit || c == '_'

def lowerL (s : List Char) : List Char := s.map Char.toLower

/-- Python `str.strip()`. -/
def pyStrip (s : List Char) : List Char :=
  ((s.dropWhile pyIsSpace).reverse.dropWhile pyIsSpace).reverse

/-- Python `str.strip(chars)` for an explicit character set. -/
def stripChars (cs : List Char) (s : List Char) : List Char :=
  ((s.dropWhile (fun c => cs.contains c)).reverse.dropWhile (fun c => cs.contains c)).reverse

/-- Does `pat` occur at the start of the second list (case-sensitive)? -/
def startsList : List Char → List Char → Bool
  | [], _ => true
  | _ :: _, [] => false
  | p :: ps, c :: cs => p == c && startsList ps cs

/-- Python substring containment `pat in s`. -/
def isSubstring (pat : List Char) : List Char → Bool
  | [] => pat.isEmpty
  | c :: rest => startsList pat (c :: rest) || isSubstring pat rest

def pyReplaceFuel (old new : List Char) : Nat → List Char → List Char
  | _, [] => []
  | 0, s => s
  | fuel + 1, c :: rest =>
    if old ≠ [] ∧ startsList old (c :: rest) then
      new ++ pyReplaceFuel old new fuel ((c :: rest).drop old.length)
    else
      c :: pyReplaceFuel old new fuel rest

/-- Python `str.replace(old, new)`: replaces ALL occurrences, scanning left
to right without overlap.  (`old` is non-empty at every use site of this
module, so the fuel `s.length` always suffices.) -/
def pyReplace (s old new : List Char) : List Char := pyReplaceFuel old new s.length s

def collapseWsAux : Bool → List Char → List Char
  | _, [] => []
  | inWs, c :: rest =>
    if pyIsSpace c then
      if inWs then collapseWsAux true rest else ' ' :: collapseWsAux true rest
    else c :: collapseWsAux false rest

/-- Python `re.sub(r"\s+", " ", s)`: each maximal whitespace run becomes a
single space. -/
def collapseWs (s : List Char) : List Char := collapseWsAux false s

def pyTitleAux : Bool → List Char → List Char
  | _, [] => []
  | prevCased, c :: rest =>
    if c.isAlpha then
      (if prevCased then c.toLower else c.toUpper) :: pyTitleAux true rest
    else c :: pyTitleAux false rest

/-- Python `str.title()` (ASCII letters as the cased characters). -/
def pyTitle (s : List Char) : List Char := pyTitleAux false s

/-- Line separators of Python `str.splitlines` ("\r\n" is handled as a
single separator in `pySplitlinesAux`). -/
def isLineSep (c : Char) : Bool :=
  c == '\n' || c == '\r' || c == '\x0b' || c == '\x0c' || c == '\x1c' ||
  c == '\x1d' || c == '\x1e' || c == '\x85' || c == '\u2028' || c == '\u2029'

def pySplitlinesAux : List Char → List Char → List (List Char)
  | acc, [] => if acc.isEmpty then [] else [acc.reverse]
  | acc, '\r' :: '\n' :: rest => acc.reverse :: pySplitlinesAux [] rest
  | acc, c :: rest =>
    if isLineSep c then acc.reverse :: pySplitlinesAux [] rest
    else pySplitlinesAux (c :: acc) rest

/-- Python `str.splitlines()`: no trailing empty line for a trailing
separator, and the empty string gives no lines. -/
def pySplitlines (s : List Char) : List (List Char) := pySplitlinesAux [] s

def natOfDigits (ds : List Char) : Nat :=
  ds.foldl (fun n c => 10 * n + (c.toNat - 48)) 0

/-- Greedy span of the digit class at the start of the list. -/
def spanDigits : List Char → List Char × List Char
  | [] => ([], [])
  | c :: rest =>
    if c.isDigit then
      ((c :: (spanDigits rest).1), (spanDigits rest).2)
    else ([], c :: rest)

/-- Regex fragment of one or more digits: greedy, requires at least one. -/
def digits1 (s : List Char) : Option (List Char × List Char) :=
  if (spanDigits s).1.isEmpty then none else some ((spanDigits s).1, (spanDigits s).2)

/-- Regex fragment of a decimal numeral: digits with an optional dot-and-digits
part.  Greedy matching is exact here: whenever the optional decimal part
matches, dropping it makes the continuation fail, so no backtracking occurs. -/
def numTok (s : List Char) : Option (List Char × List Char) :=
  match digits1 s with
  | none => none
  | some (ds, r) =>
    match r with
    | '.' :: r2 =>
      match digits1 r2 with
      | some (fs, r3) => some (ds ++ '.' :: fs, r3)
      | none => some (ds, r)
    | _ => some (ds, r)

/-- Recogniser for the decimal-numeral shape produced by `numTok`. -/
def isNumStr (v : List Char) : Bool :=
  match digits1 v with
  | none => false
  | some (_, r) =>
    match r with
    | [] => true
    | '.' :: r2 =>
      match digits1 r2 with
      | some (_, r3) => r3.isEmpty
      | none => false
    | _ => false

/-- Exact rational value of a decimal numeral string, the arithmetic content
of Python `float(match.group(1))`. -/
def ratOfNumStr (v : List Char) : ℚ :=
  match (spanDigits v).2 with
  | '.' :: fs => (natOfDigits (spanDigits v).1 : ℚ) + (natOfDigits fs : ℚ) / ((10 : ℚ) ^ fs.length)
  | _ => (natOfDigits (spanDigits v).1 : ℚ)

/-- Greedy span of whitespace, the regex fragment of zero or more spaces. -/
def spacesStar (s : List Char) : List Char × List Char :=
  (s.takeWhile pyIsSpace, s.dropWhile pyIsSpace)

/-- Case-insensitive prefix test against a lowercase pattern. -/
def ciStarts : List Char → List Char → Bool
  | [], _ => true
  | _ :: _, [] => false
  | p :: ps, c :: cs => c.toLower == p && ciStarts ps cs

/-- Word-boundary test after a word character: end of input or a non-word
character next. -/
def boundaryOk : List Char → Bool
  | [] => true
  | c :: _ => !isWordC c

/-- Try the regex alternatives in order at the current position; each must be
followed by a word boundary.  Returns the matched slice of the input and the
(lowercase) alternative that matched. -/
def altMatch : List (List Char) → List Char → Option (List Char × List Char)
  | [], _ => none
  | a :: rest, s =>
    if ciStarts a s && boundaryOk (s.drop a.length) then some (s.take a.length, a)
    else altMatch rest s

/-- Attempt the pattern of a decimal numeral, optional spaces and one of the
unit alternatives (with trailing word boundary) at the current position.
Returns (group 1, lowercased group 2, group 0). -/
def unitMatchAt (alts : List (List Char)) (s : List Char) :
    Option (List Char × List Char × List Char) :=
  match numTok s with
  | none => none
  | some (v, r1) =>
    match altMatch alts (spacesStar r1).2 with
    | none => none
    | some (a, alt) => some (v, alt, v ++ (spacesStar r1).1 ++ a)

/-- Leftmost search of the numeral-plus-unit pattern, as in `re.search`. -/
def unitSearchAux (alts : List (List Char)) : List Char → Option (List Char × List Char × List Char)
  | [] => none
  | c :: rest =>
    match unitMatchAt alts (c :: rest) with
    | some r => some r
    | none => unitSearchAux alts rest

/-- Alternatives of the weight regex, in the order they appear in the
pattern. -/
def weightAlts : List (List Char) := [("kg".toList), ("g".toList)]

/-- Alternatives of the volume regex, in the order they appear in the
pattern. -/
def volumeAlts : List (List Char) := [("l".toList), ("ml".toList)]

/-- Alternatives of the count-token regex, in the order they appear in the
pattern. -/
def countAlts : List (List Char) :=
  [("x".toList), ("ct".toList), ("pcs".toList), ("pc".toList), ("each".toList), ("ea".toList)]

def _SKIP_KEYWORDS : List (List Char) :=
  [("total".toList), ("subtotal".toList), ("tax".toList), ("change".toList),
   ("balance".toList), ("cash".toList), ("credit".toList), ("debit".toList),
   ("visa".toList), ("mastercard".toList), ("amex".toList), ("payment".toList),
   ("card".toList)]

def _PACK_WORDS : List (List Char) :=
  [("family pack".toList), ("pack".toList), ("box".toList), ("bag".toList),
   ("bottle".toList), ("dozen".toList), ("loaf".toList), ("head".toList),
   ("tub".toList), ("can".toList), ("jar".toList)]

def _should_skip (line : List Char) : Bool :=
  _SKIP_KEYWORDS.any (fun w => isSubstring w (lowerL line))

structure WeightRes where
  quantity : ℚ
  quantity_unit : List Char
  match0 : List Char
deriving DecidableEq, Repr

/-- Embedding of `_extract_weight`: leftmost match of the weight regex;
kilograms are converted to grams by multiplying by 1000. -/
def _extract_weight (line : List Char) : Option WeightRes :=
  match unitSearchAux weightAlts line with
  | none => none
  | some (v, u, m) =>
    some { quantity := if u = ("kg".toList) then ratOfNumStr v * 1000 else ratOfNumStr v,
           quantity_unit := ("g".toList),
           match0 := m }

structure VolumeRes where
  quantity : ℚ
  quantity_unit : List Char
  unit : List Char
  match0 : List Char
deriving DecidableEq, Repr

/-- Embedding of `_extract_volume`: leftmost match of the volume regex; the
quantity is fixed at 1, the packaging unit is group 1 followed by the
lowercased unit. -/
def _extract_volume (line : List Char) : Option VolumeRes :=
  match unitSearchAux volumeAlts line with
  | none => none
  | some (v, u, m) =>
    some { quantity := 1, quantity_unit := ("unit".toList), unit := v ++ u, match0 := m }

structure CountRes where
  quantity : Nat
  match0 : List Char
  rest : Option (List Char)
deriving DecidableEq, Repr

/-- First count pattern, anchored at the start of the line: optional spaces,
digits, at least one space, then the rest of the line as group 2.  Group 0 is
the entire line. -/
def countFirst (line : List Char) : Option (Nat × List Char) :=
  match digits1 (line.dropWhile pyIsSpace) with
  | none => none
  | some (ds, r1) =>
    match r1 with
    | [] => none
    | c :: _ =>
      if pyIsSpace c then some (natOfDigits ds, r1.dropWhile pyIsSpace) else none

/-- Attempt of the second count pattern at the current position: digits,
optional spaces, a multiplier token, with word boundaries on both sides (the
leading boundary is checked by the caller). -/
def countSearchAt (s : List Char) : Option (Nat × List Char) :=
  match digits1 s with
  | none => none
  | some (ds, r1) =>
    match altMatch countAlts (spacesStar r1).2 with
    | none => none
    | some (a, _) => some (natOfDigits ds, ds ++ (spacesStar r1).1 ++ a)

/-- Leftmost search of the second count pattern; the Boolean records whether
the previous character was a word character, for the leading boundary. -/
def countSearchAux : Bool → List Char → Option (Nat × List Char)
  | _, [] => none
  | prevWord, c :: rest =>
    match (if prevWord then none else countSearchAt (c :: rest)) with
    | some r => some r
    | none => countSearchAux (isWordC c) rest

def countSearch (s : List Char) : Option (Nat × List Char) := countSearchAux false s

/-- Embedding of `_extract_count`: the anchored pattern is tried first and,
when it matches, carries the rest of the line; otherwise the multiplier-token
pattern is searched. -/
def _extract_count (line : List Char) : Option CountRes :=
  match countFirst line with
  | some (q, rest) => some { quantity := q, match0 := line, rest := some rest }
  | none =>
    match countSearch line with
    | some (q, m) => some { quantity := q, match0 := m, rest := none }
    | none => none

/-- Embedding of `_extract_pack_unit`, generic in the keyword list: first
keyword in list order that is contained in the lowercased line. -/
def findPackWord : List (List Char) → List Char → Option (List Char)
  | [], _ => none
  | w :: ws, lo => if isSubstring w lo then some w else findPackWord ws lo

def _extract_pack_unit (line : List Char) : Option (List Char) :=
  findPackWord _PACK_WORDS (lowerL line)

structure InventoryItem where
  product_name : List Char
  quantity : ℚ
  quantity_unit : List Char
  unit : Option (List Char)
deriving DecidableEq, Repr

structure LineState where
  working : List Char
  quantity : ℚ
  quantity_unit : List Char
  unit : Option (List Char)
deriving DecidableEq, Repr

inductive LineOutcome where
  | item : InventoryItem → LineOutcome
  | skip : List Char → LineOutcome
deriving DecidableEq, Repr

/-- Weight-else-volume stage of the per-line loop of `parse_receipt_text`. -/
def stageWV (line : List Char) : LineState :=
  match _extract_weight line with
  | some w =>
    { working := pyReplace line w.match0 ([' ']), quantity := w.quantity,
      quantity_unit := w.quantity_unit, unit := none }
  | none =>
    match _extract_volume line with
    | some v =>
      { working := pyReplace line v.match0 ([' ']), quantity := v.quantity,
        quantity_unit := v.quantity_unit, unit := some v.unit }
    | none =>
      { working := line, quantity := 1, quantity_unit := ("unit".toList), unit := none }

/-- Count stage: the override fires only when `quantity_unit` is still the
string for units. -/
def stageCount (st : LineState) : LineState :=
  match _extract_count st.working with
  | some c =>
    if st.quantity_unit = ("unit".toList) then
      { st with quantity := (c.quantity : ℚ),
                working := match c.rest with
                           | some r => r
                           | none => pyReplace st.working c.match0 ([' ']) }
    else st
  | none => st

/-- Pack-unit stage: only when no packaging unit has been set. -/
def stagePack (st : LineState) : LineState :=
  match st.unit with
  | some _ => st
  | none =>
    match _extract_pack_unit st.working with
    | some w => { st with unit := some w, working := pyReplace st.working w ([' ']) }
    | none => st

/-- Final stage: normalise the residual working text into the product name;
an empty name routes the (stripped) line to the skip list. -/
def finishLine (line : List Char) (st : LineState) : LineOutcome :=
  if stripChars ([' ', '-']) (collapseWs st.working) = [] then .skip line
  else
    .item { product_name := pyTitle (stripChars ([' ', '-']) (collapseWs st.working)),
            quantity := st.quantity, quantity_unit := st.quantity_unit, unit := st.unit }

/-- Whole body of the per-line loop for a stripped, non-blank line. -/
def processLine (line : List Char) : LineOutcome :=
  if _should_skip line then .skip line
  else finishLine line (stagePack (stageCount (stageWV line)))

/-- The loop of `parse_receipt_text` over the split lines, producing the
items and the skipped lines in input order. -/
def parseLines : List (List Char) → List InventoryItem × List (List Char)
  | [] => ([], [])
  | raw :: rest =>
    if (pyStrip raw).isEmpty then parseLines rest
    else
      match processLine (pyStrip raw) with
      | .item it => (it :: (parseLines rest).1, (parseLines rest).2)
      | .skip s => ((parseLines rest).1, s :: (parseLines rest).2)

inductive ParseResult where
  | error : List Char → ParseResult
  | success : Nat → List InventoryItem → List (List Char) → ParseResult
deriving DecidableEq, Repr

/-- Embedding of `parse_receipt_text`: empty or whitespace-only input is the
error case; otherwise the result carries the count, the items and the skipped
lines. -/
def parse_receipt_text (text : List Char) : ParseResult :=
  if pyStrip text = [] then .error ("No receipt text provided.".toList)
  else .success (parseLines (pySplitlines text)).1.length
               (parseLines (pySplitlines text)).1
               (parseLines (pySplitlines text)).2

/-- Number of non-blank lines of the input text. -/
def nonBlankCount (text : List Char) : Nat :=
  ((pySplitlines text).filter (fun l => !(pyStrip l).isEmpty)).length

/-- Modelled from the spec claim wording: removal of only the FIRST textual
occurrence of the keyword from the working text, for comparison with the
code's `str.replace`, which removes all occurrences. -/
def removeFirstOccurrenceSpec : List Char → List Char → List Char → List Char
  | [], _, _ => []
  | c :: rest, old, new =>
    if startsList old (c :: rest) then new ++ (c :: rest).drop old.length
    else c :: removeFirstOccurrenceSpec rest old new

theorem pyTitleAux_ne_nil (b : Bool) (l : List Char) (h : l ≠ []) : pyTitleAux b l ≠ [] := by
  cases l with
  | nil => exact absurd rfl h
  | cons c rest =>
    unfold pyTitleAux
    split <;> simp

theorem spanDigits_mem (s : List Char) : ∀ d ∈ (spanDigits s).1, d.isDigit = true := by
  induction s with
  | nil => intro d hd; simp [spanDigits] at hd
  | cons c rest ih =>
    intro d hd
    by_cases h : c.isDigit = true
    · simp only [spanDigits, h, if_true] at hd
      rcases List.mem_cons.mp hd with h1 | h2
      · subst h1; exact h
      · exact ih d h2
    · simp only [spanDigits, h, if_false] at hd
      exact absurd hd (List.not_mem_nil d)

theorem spanDigits_full (l : List Char) (h : ∀ c ∈ l, c.isDigit = true) :
    spanDigits l = (l, []) := by
  induction l with
  | nil => rfl
  | cons c rest ih =>
    have hc : c.isDigit = true := h c (List.mem_cons_self c rest)
    have hr := ih fun d hd => h d (List.mem_cons_of_mem c hd)
    simp [spanDigits, hc, hr]

theorem spanDigits_append (ds : List Char) (x : Char) (r : List Char)
    (h : ∀ c ∈ ds, c.isDigit = true) (hx : x.isDigit = false) :
    spanDigits (ds ++ x :: r) = (ds, x :: r) := by
  induction ds with
  | nil => simp [spanDigits, hx]
  | cons c rest ih =>
    have hc := h c (List.mem_cons_self c rest)
    have hr := ih fun d hd => h d (List.mem_cons_of_mem c hd)
    simp [spanDigits, hc, hr]

theorem digits1_eq (s ds r : List Char) (h : digits1 s = some (ds, r)) :
    spanDigits s = (ds, r) ∧ ds ≠ [] := by
  unfold digits1 at h
  split at h
  · cases h
  · next hne =>
    injection h with h1
    have h2 : (spanDigits s).1 = ds := congrArg Prod.fst h1
    have h3 : (spanDigits s).2 = r := congrArg Prod.snd h1
    refine ⟨Prod.ext h2 h3, ?_⟩
    intro hnil
    rw [hnil] at h2
    rw [h2] at hne
    simp at hne

theorem digits1_of (s ds r : List Char) (h : spanDigits s = (ds, r)) (hne : ds ≠ []) :
    digits1 s = some (ds, r) := by
  unfold digits1
  rw [h]
  cases ds with
  | nil => exact absurd rfl hne
  | cons c rest => simp

theorem numTok_isNumStr (s v r : List Char) (h : numTok s = some (v, r)) : isNumStr v = true := by
  unfold numTok at h
  split at h
  · cases h
  next ds r0 hd =>
    obtain ⟨hspan, hne⟩ := digits1_eq s ds r0 hd
    have hds : ∀ c ∈ ds, c.isDigit = true := by
      intro c hc
      exact spanDigits_mem s c (by rw [hspan]; exact hc)
    have hdsfull : digits1 ds = some (ds, []) := digits1_of ds ds [] (spanDigits_full ds hds) hne
    split at h
    next r2 =>
      split at h
      next fs r3 hd2 =>
        injection h with h1
        have hv : ds ++ '.' :: fs = v := congrArg Prod.fst h1
        obtain ⟨hspan2, hne2⟩ := digits1_eq r2 fs r3 hd2
        have hfs : ∀ c ∈ fs, c.isDigit = true := by
          intro c hc
          exact spanDigits_mem r2 c (by rw [hspan2]; exact hc)
        have hstep : spanDigits (ds ++ '.' :: fs) = (ds, '.' :: fs) :=
          spanDigits_append ds '.' fs hds (by decide)
        have hd3 : digits1 (ds ++ '.' :: fs) = some (ds, '.' :: fs) :=
          digits1_of (ds ++ '.' :: fs) ds ('.' :: fs) hstep hne
        have hfsfull : digits1 fs = some (fs, []) :=
          digits1_of fs fs [] (spanDigits_full fs hfs) hne2
        rw [← hv]
        simp [isNumStr, hd3, hfsfull]
      next hd2 =>
        injection h with h1
        have hv : ds = v := congrArg Prod.fst h1
        rw [← hv]
        simp [isNumStr, hdsfull]
    next hnotdot =>
      injection h with h1
      have hv : ds = v := congrArg Prod.fst h1
      rw [← hv]
      simp [isNumStr, hdsfull]

theorem altMatch_mem (alts : List (List Char)) (s a alt : List Char)
    (h : altMatch alts s = some (a, alt)) : alt ∈ alts := by
  induction alts with
  | nil => simp [altMatch] at h
  | cons a0 rest ih =>
    unfold altMatch at h
    split at h
    · injection h with h1
      have : a0 = alt := congrArg Prod.snd h1
      rw [← this]
      exact List.mem_cons_self a0 rest
    · exact List.mem_cons_of_mem a0 (ih h)

theorem unitMatchAt_shape (alts : List (List Char)) (s v u m : List Char)
    (h : unitMatchAt alts s = some (v, u, m)) : isNumStr v = true ∧ u ∈ alts := by
  unfold unitMatchAt at h
  split at h
  · cases h
  next v0 r1 hnum =>
    split at h
    · cases h
    next a alt halt =>
      injection h with h1
      have hv : v0 = v := congrArg Prod.fst h1
      have hu : alt = u := congrArg Prod.fst (congrArg Prod.snd h1)
      subst hv
      subst hu
      exact ⟨numTok_isNumStr s v0 r1 hnum, altMatch_mem alts (spacesStar r1).2 a alt halt⟩

theorem unitSearchAux_shape (alts : List (List Char)) (s v u m : List Char)
    (h : unitSearchAux alts s = some (v, u, m)) : isNumStr v = true ∧ u ∈ alts := by
  induction s with
  | nil => simp [unitSearchAux] at h
  | cons c rest ih =>
    unfold unitSearchAux at h
    split at h
    next r hat =>
      injection h with h1
      rw [h1] at hat
      exact unitMatchAt_shape alts (c :: rest) v u m hat
    next hat => exact ih h

theorem _extract_weight_fields (line : List Char) (w : WeightRes)
    (h : _extract_weight line = some w) : w.quantity_unit = ("g".toList) := by
  unfold _extract_weight at h
  split at h
  · cases h
  next v u m heq =>
    injection h with h1
    rw [← h1]

theorem _extract_volume_fields (line : List Char) (vr : VolumeRes)
    (h : _extract_volume line = some vr) :
    vr.quantity = 1 ∧ vr.quantity_unit = ("unit".toList) ∧
    ∃ v u, unitSearchAux volumeAlts line = some (v, u, vr.match0) ∧ vr.unit = v ++ u ∧
      isNumStr v = true ∧ (u = ("l".toList) ∨ u = ("ml".toList)) := by
  unfold _extract_volume at h
  split at h
  · cases h
  next v u m heq =>
    injection h with h1
    subst h1
    obtain ⟨hnum, hmem⟩ := unitSearchAux_shape volumeAlts line v u m heq
    refine ⟨rfl, rfl, v, u, heq, rfl, hnum, ?_⟩
    simpa [volumeAlts] using hmem

theorem findPackWord_first (ws : List (List Char)) (lo w : List Char)
    (h : findPackWord ws lo = some w) :
    ∃ pre post, ws = pre ++ w :: post ∧ isSubstring w lo = true ∧
      ∀ w2 ∈ pre, isSubstring w2 lo = false := by
  induction ws with
  | nil => simp [findPackWord] at h
  | cons a rest ih =>
    unfold findPackWord at h
    split at h
    next hs =>
      injection h with h1
      subst h1
      exact ⟨[], rest, rfl, hs, by simp⟩
    next hs =>
      obtain ⟨pre, post, heq, hsub, hall⟩ := ih h
      refine ⟨a :: pre, post, by rw [heq]; rfl, hsub, ?_⟩
      intro w2 hw2
      rcases List.mem_cons.mp hw2 with h1 | h2
      · subst h1
        exact Bool.not_eq_true _ ▸ by simpa using hs
      · exact hall w2 h2

theorem findPackWord_mem (ws : List (List Char)) (lo w : List Char)
    (h : findPackWord ws lo = some w) : w ∈ ws := by
  obtain ⟨pre, post, heq, _, _⟩ := findPackWord_first ws lo w h
  rw [heq]
  exact List.mem_append_right pre (List.mem_cons_self w post)

theorem stageWV_weight (line : List Char) (w : WeightRes) (h : _extract_weight line = some w) :
    stageWV line = { working := pyReplace line w.match0 ([' ']), quantity := w.quantity,
                     quantity_unit := w.quantity_unit, unit := none } := by
  unfold stageWV
  rw [h]

theorem stageWV_volume (line : List Char) (vr : VolumeRes)
    (hw : _extract_weight line = none) (hv : _extract_volume line = some vr) :
    stageWV line = { working := pyReplace line vr.match0 ([' ']), quantity := vr.quantity,
                     quantity_unit := vr.quantity_unit, unit := some vr.unit } := by
  unfold stageWV
  rw [hw, hv]

theorem stageWV_none (line : List Char)
    (hw : _extract_weight line = none) (hv : _extract_volume line = none) :
    stageWV line = { working := line, quantity := 1, quantity_unit := ("unit".toList),
                     unit := none } := by
  unfold stageWV
  rw [hw, hv]

theorem stageCount_preserve (st : LineState) :
    (stageCount st).quantity_unit = st.quantity_unit ∧ (stageCount st).unit = st.unit := by
  unfold stageCount
  split
  · split
    · exact ⟨rfl, rfl⟩
    · exact ⟨rfl, rfl⟩
  · exact ⟨rfl, rfl⟩

theorem stageCount_of_ne (st : LineState) (h : ¬ st.quantity_unit = ("unit".toList)) :
    stageCount st = st := by
  unfold stageCount
  split
  · rw [if_neg h]
  · rfl

theorem stageCount_override (st : LineState) (c : CountRes)
    (hc : _extract_count st.working = some c) (hu : st.quantity_unit = ("unit".toList)) :
    (stageCount st).quantity = (c.quantity : ℚ) := by
  simp [stageCount, hc, hu]

theorem stagePack_fields (st : LineState) :
    (stagePack st).quantity_unit = st.quantity_unit ∧ (stagePack st).quantity = st.quantity ∧
      ((stagePack st).unit = st.unit ∨
       ∃ w, w ∈ _PACK_WORDS ∧ (stagePack st).unit = some w) := by
  unfold stagePack
  split
  · exact ⟨rfl, rfl, Or.inl rfl⟩
  · split
    next w heq =>
      refine ⟨rfl, rfl, Or.inr ⟨w, ?_, rfl⟩⟩
      unfold _extract_pack_unit at heq
      exact findPackWord_mem _PACK_WORDS (lowerL st.working) w heq
    next => exact ⟨rfl, rfl, Or.inl rfl⟩

theorem stagePack_set (st : LineState) (w : List Char) (hu : st.unit = none)
    (hw : _extract_pack_unit st.working = some w) :
    stagePack st = { st with unit := some w, working := pyReplace st.working w ([' ']) } := by
  unfold stagePack
  rw [hu, hw]

theorem finishLine_skip (line : List Char) (st : LineState)
    (h : stripChars ([' ', '-']) (collapseWs st.working) = []) :
    finishLine line st = .skip line := by
  unfold finishLine
  rw [if_pos h]

theorem finishLine_item_fields (line : List Char) (st : LineState) (it : InventoryItem)
    (h : finishLine line st = .item it) :
    it.product_name = pyTitle (stripChars ([' ', '-']) (collapseWs st.working)) ∧
    it.product_name ≠ [] ∧ it.quantity = st.quantity ∧
    it.quantity_unit = st.quantity_unit ∧ it.unit = st.unit := by
  unfold finishLine at h
  split at h
  · cases h
  next hne =>
    injection h with h1
    subst h1
    exact ⟨rfl, pyTitleAux_ne_nil false _ hne, rfl, rfl, rfl⟩

theorem processLine_skip_eq (line s : List Char) (h : processLine line = .skip s) : s = line := by
  unfold processLine at h
  split at h
  · injection h with h1
    exact h1.symm
  · unfold finishLine at h
    split at h
    · injection h with h1
      exact h1.symm
    · cases h

theorem processLine_item_fields (line : List Char) (it : InventoryItem)
    (h : processLine line = .item it) :
    it.product_name = pyTitle (stripChars ([' ', '-'])
        (collapseWs (stagePack (stageCount (stageWV line))).working)) ∧
    it.product_name ≠ [] ∧
    it.quantity = (stagePack (stageCount (stageWV line))).quantity ∧
    it.quantity_unit = (stagePack (stageCount (stageWV line))).quantity_unit ∧
    it.unit = (stagePack (stageCount (stageWV line))).unit := by
  unfold processLine at h
  split at h
  · cases h
  · exact finishLine_item_fields line _ it h

theorem parseLines_length (ls : List (List Char)) :
    (parseLines ls).1.length + (parseLines ls).2.length =
      (ls.filter (fun l => !(pyStrip l).isEmpty)).length := by
  induction ls with
  | nil => rfl
  | cons raw rest ih =>
    simp only [parseLines]
    by_cases hb : (pyStrip raw).isEmpty
    · rw [if_pos hb]
      have hf : (raw :: rest).filter (fun l => !(pyStrip l).isEmpty) =
          rest.filter (fun l => !(pyStrip l).isEmpty) := by
        simp [List.filter_cons, hb]
      rw [hf]
      exact ih
    · rw [if_neg hb]
      have hf : (raw :: rest).filter (fun l => !(pyStrip l).isEmpty) =
          raw :: rest.filter (fun l => !(pyStrip l).isEmpty) := by
        simp [List.filter_cons, hb]
      rw [hf]
      split
      · simp only [List.length_cons]
        omega
      · simp only [List.length_cons]
        omega

theorem parseLines_skipped (ls : List (List Char)) (s : List Char)
    (hs : s ∈ (parseLines ls).2) : ∃ raw, raw ∈ ls ∧ s = pyStrip raw := by
  induction ls with
  | nil => simp [parseLines] at hs
  | cons raw rest ih =>
    simp only [parseLines] at hs
    by_cases hb : (pyStrip raw).isEmpty
    · rw [if_pos hb] at hs
      obtain ⟨r, hr, he⟩ := ih hs
      exact ⟨r, List.mem_cons_of_mem raw hr, he⟩
    · rw [if_neg hb] at hs
      split at hs
      next it heq =>
        obtain ⟨r, hr, he⟩ := ih hs
        exact ⟨r, List.mem_cons_of_mem raw hr, he⟩
      next s0 heq =>
        rcases List.mem_cons.mp hs with h1 | h2
        · subst h1
          exact ⟨raw, List.mem_cons_self raw rest, (processLine_skip_eq _ _ heq).symm ▸ rfl⟩
        · obtain ⟨r, hr, he⟩ := ih h2
          exact ⟨r, List.mem_cons_of_mem raw hr, he⟩

theorem parseLines_items (ls : List (List Char)) (it : InventoryItem)
    (hi : it ∈ (parseLines ls).1) :
    ∃ raw, raw ∈ ls ∧ processLine (pyStrip raw) = .item it := by
  induction ls with
  | nil => simp [parseLines] at hi
  | cons raw rest ih =>
    simp only [parseLines] at hi
    by_cases hb : (pyStrip raw).isEmpty
    · rw [if_pos hb] at hi
      obtain ⟨r, hr, he⟩ := ih hi
      exact ⟨r, List.mem_cons_of_mem raw hr, he⟩
    · rw [if_neg hb] at hi
      split at hi
      next it0 heq =>
        rcases List.mem_cons.mp hi with h1 | h2
        · subst h1
          exact ⟨raw, List.mem_cons_self raw rest, heq⟩
        · obtain ⟨r, hr, he⟩ := ih h2
          exact ⟨r, List.mem_cons_of_mem raw hr, he⟩
      next s0 heq =>
        obtain ⟨r, hr, he⟩ := ih hi
        exact ⟨r, List.mem_cons_of_mem raw hr, he⟩

theorem stageWV_shape (line : List Char) :
    ((stageWV line).quantity_unit = ("g".toList) ∨
     (stageWV line).quantity_unit = ("unit".toList)) ∧
    ((stageWV line).unit = none ∨
     ∃ v u, isNumStr v = true ∧ (u = ("l".toList) ∨ u = ("ml".toList)) ∧
       (stageWV line).unit = some (v ++ u)) := by
  cases hw : _extract_weight line with
  | some w =>
    have hg := _extract_weight_fields line w hw
    constructor
    · exact Or.inl (by rw [stageWV_weight line w hw]; exact hg)
    · exact Or.inl (by rw [stageWV_weight line w hw])
  | none =>
    cases hv : _extract_volume line with
    | some vr =>
      obtain ⟨hq, hqu, v, u, hsearch, hvu, hnum, hlu⟩ := _extract_volume_fields line vr hv
      constructor
      · exact Or.inr (by rw [stageWV_volume line vr hw hv]; exact hqu)
      · refine Or.inr ⟨v, u, hnum, hlu, ?_⟩
        rw [stageWV_volume line vr hw hv]
        show some vr.unit = some (v ++ u)
        rw [hvu]
    | none =>
      constructor
      · exact Or.inr (by rw [stageWV_none line hw hv])
      · exact Or.inl (by rw [stageWV_none line hw hv])

/-- C2: for every non-empty, non-whitespace-only input text,
`parse_receipt_text` returns a success result whose item count plus skipped
count equals the number of non-blank lines of the input, so every non-blank
line yields exactly one of an emitted item or a skipped entry and blank
lines contribute to neither. -/
theorem C2_parse_line_accounting (text : List Char) (h : pyStrip text ≠ []) :
    ∃ items skipped, parse_receipt_text text = .success items.length items skipped ∧
      items.length + skipped.length = nonBlankCount text := by
  unfold parse_receipt_text
  rw [if_neg h]
  exact ⟨_, _, rfl, parseLines_length (pySplitlines text)⟩

theorem C2_parse_line_accounting_witness :
    ∃ items skipped,
      parse_receipt_text ("Milk\ntotal 5".toList) = .success items.length items skipped ∧
      items.length + skipped.length = nonBlankCount ("Milk\ntotal 5".toList) :=
  C2_parse_line_accounting ("Milk\ntotal 5".toList) (by decide)

/-- C3: on every line where the weight extractor matches, the emitted item
(if any) carries the weight quantity with quantity_unit "g" and the count
extractor does not override them; parsing "2 Chicken Breast 500g" yields an
item with quantity 500 and quantity_unit "g". -/
theorem C3_weight_over_count :
    (∀ line w it, _extract_weight line = some w → processLine line = .item it →
       it.quantity = w.quantity ∧ it.quantity_unit = ("g".toList)) ∧
    parse_receipt_text ("2 Chicken Breast 500g".toList) =
      .success 1 [{ product_name := ("2 Chicken Breast".toList), quantity := 500,
                    quantity_unit := ("g".toList), unit := none }] [] := by
  constructor
  · intro line w it hw hp
    obtain ⟨_, _, hq, hqu, _⟩ := processLine_item_fields line it hp
    have hwv := stageWV_weight line w hw
    have hg : w.quantity_unit = ("g".toList) := _extract_weight_fields line w hw
    have hne : ¬ (stageWV line).quantity_unit = ("unit".toList) := by
      rw [hwv]
      show ¬ w.quantity_unit = ("unit".toList)
      rw [hg]
      decide
    have hcnt : stageCount (stageWV line) = stageWV line := stageCount_of_ne _ hne
    obtain ⟨hpqu, hpq, _⟩ := stagePack_fields (stageCount (stageWV line))
    constructor
    · rw [hq, hpq, hcnt, hwv]
    · rw [hqu, hpqu, hcnt, hwv]
      exact hg
  · decide

theorem C3_weight_over_count_witness :
    ({ product_name := ("2 Chicken Breast".toList), quantity := 500,
       quantity_unit := ("g".toList), unit := none } : InventoryItem).quantity =
      ({ quantity := 500, quantity_unit := ("g".toList),
         match0 := ("500g".toList) } : WeightRes).quantity ∧
    ({ product_name := ("2 Chicken Breast".toList), quantity := 500,
       quantity_unit := ("g".toList), unit := none } : InventoryItem).quantity_unit =
      ("g".toList) :=
  C3_weight_over_count.1 ("2 Chicken Breast 500g".toList)
    { quantity := 500, quantity_unit := ("g".toList), match0 := ("500g".toList) }
    { product_name := ("2 Chicken Breast".toList), quantity := 500,
      quantity_unit := ("g".toList), unit := none }
    (by decide) (by decide)

/-- C4: when the volume extractor matches a line the weight extractor did
not, the extraction fixes quantity at 1 with quantity_unit "unit" and stores
the matched numeral followed by the lowercased volume unit as the packaging
unit field; parsing "Juice 1L" yields quantity 1, quantity_unit "unit" and
unit "1l". -/
theorem C4_volume_sets_packaging :
    (∀ line vr, _extract_weight line = none → _extract_volume line = some vr →
       vr.quantity = 1 ∧ vr.quantity_unit = ("unit".toList) ∧
       (∃ v u, unitSearchAux volumeAlts line = some (v, u, vr.match0) ∧ vr.unit = v ++ u ∧
          isNumStr v = true ∧ (u = ("l".toList) ∨ u = ("ml".toList))) ∧
       stageWV line = { working := pyReplace line vr.match0 ([' ']), quantity := 1,
                        quantity_unit := ("unit".toList), unit := some vr.unit }) ∧
    parse_receipt_text ("Juice 1L".toList) =
      .success 1 [{ product_name := ("Juice".toList), quantity := 1,
                    quantity_unit := ("unit".toList), unit := some ("1l".toList) }] [] := by
  constructor
  · intro line vr hw hv
    obtain ⟨hq, hqu, v, u, hsearch, hvu, hnum, hlu⟩ := _extract_volume_fields line vr hv
    refine ⟨hq, hqu, ⟨v, u, hsearch, hvu, hnum, hlu⟩, ?_⟩
    rw [stageWV_volume line vr hw hv, hq, hqu]
  · decide

theorem C4_volume_sets_packaging_witness :
    ({ quantity := 1, quantity_unit := ("unit".toList), unit := ("1l".toList),
       match0 := ("1L".toList) } : VolumeRes).quantity = 1 ∧
    ({ quantity := 1, quantity_unit := ("unit".toList), unit := ("1l".toList),
       match0 := ("1L".toList) } : VolumeRes).quantity_unit = ("unit".toList) ∧
    (∃ v u, unitSearchAux volumeAlts ("Juice 1L".toList) =
        some (v, u, ({ quantity := 1, quantity_unit := ("unit".toList), unit := ("1l".toList),
                       match0 := ("1L".toList) } : VolumeRes).match0) ∧
      ({ quantity := 1, quantity_unit := ("unit".toList), unit := ("1l".toList),
         match0 := ("1L".toList) } : VolumeRes).unit = v ++ u ∧
      isNumStr v = true ∧ (u = ("l".toList) ∨ u = ("ml".toList))) ∧
    stageWV ("Juice 1L".toList) =
      { working := pyReplace ("Juice 1L".toList)
          (({ quantity := 1, quantity_unit := ("unit".toList), unit := ("1l".toList),
              match0 := ("1L".toList) } : VolumeRes).match0) ([' ']),
        quantity := 1, quantity_unit := ("unit".toList),
        unit := some (({ quantity := 1, quantity_unit := ("unit".toList), unit := ("1l".toList),
                         match0 := ("1L".toList) } : VolumeRes).unit) } :=
  C4_volume_sets_packaging.1 ("Juice 1L".toList)
    { quantity := 1, quantity_unit := ("unit".toList), unit := ("1l".toList),
      match0 := ("1L".toList) }
    (by decide) (by decide)

/-- C7: every item emitted by `parse_receipt_text` has a non-empty product
name, and whenever normalisation of the residual working text yields the
empty string the final stage routes the line to the skip list instead of
emitting an item. -/
theorem C7_nonempty_product_name :
    (∀ text c items skipped it,
       parse_receipt_text text = .success c items skipped → it ∈ items →
       it.product_name ≠ []) ∧
    (∀ line st, stripChars ([' ', '-']) (collapseWs st.working) = [] →
       finishLine line st = .skip line) := by
  constructor
  · intro text c items skipped it hp hi
    unfold parse_receipt_text at hp
    split at hp
    · cases hp
    · injection hp with h1 h2 h3
      subst h2
      obtain ⟨raw, hraw, hitem⟩ := parseLines_items _ it hi
      exact (processLine_item_fields _ it hitem).2.1
  · exact finishLine_skip

theorem C7_nonempty_product_name_witness :
    ({ product_name := ("Milk".toList), quantity := 1, quantity_unit := ("unit".toList),
       unit := none } : InventoryItem).product_name ≠ [] :=
  C7_nonempty_product_name.1 ("Milk".toList) 1
    [{ product_name := ("Milk".toList), quantity := 1, quantity_unit := ("unit".toList),
       unit := none }]
    []
    { product_name := ("Milk".toList), quantity := 1, quantity_unit := ("unit".toList),
      unit := none }
    (by decide) (by decide)

/-- C8: empty or whitespace-only input yields the error result carrying only
the descriptive message (no items, skipped or count data), and this is the
only error: every other input yields a success result. -/
theorem C8_empty_input_error (text : List Char) :
    (pyStrip text = [] →
       parse_receipt_text text = .error ("No receipt text provided.".toList)) ∧
    (pyStrip text ≠ [] → ∃ items skipped,
       parse_receipt_text text = .success items.length items skipped) := by
  constructor
  · intro h
    unfold parse_receipt_text
    rw [if_pos h]
  · intro h
    unfold parse_receipt_text
    rw [if_neg h]
    exact ⟨_, _, rfl⟩

theorem C8_empty_input_error_witness :
    parse_receipt_text ("   ".toList) = .error ("No receipt text provided.".toList) ∧
    ∃ items skipped, parse_receipt_text ("Milk".toList) = .success items.length items skipped :=
  ⟨(C8_empty_input_error ("   ".toList)).1 (by decide),
   (C8_empty_input_error ("Milk".toList)).2 (by decide)⟩

/-- C10: every emitted item has quantity_unit "g" or "unit", and its unit
field is none, a decimal numeral immediately followed by "l" or "ml" (from
the volume extractor), or one of the eleven pack keywords. -/
theorem C10_item_unit_invariant (text : List Char) (c : Nat)
    (items : List InventoryItem) (skipped : List (List Char)) (it : InventoryItem)
    (hp : parse_receipt_text text = .success c items skipped) (hi : it ∈ items) :
    (it.quantity_unit = ("g".toList) ∨ it.quantity_unit = ("unit".toList)) ∧
    (it.unit = none ∨
     (∃ v, isNumStr v = true ∧
        (it.unit = some (v ++ ("l".toList)) ∨ it.unit = some (v ++ ("ml".toList)))) ∨
     ∃ w, w ∈ _PACK_WORDS ∧ it.unit = some w) := by
  unfold parse_receipt_text at hp
  split at hp
  · cases hp
  · injection hp with h1 h2 h3
    subst h2
    obtain ⟨raw, hraw, hitem⟩ := parseLines_items _ it hi
    obtain ⟨hname, hnn, hq, hqu, hun⟩ := processLine_item_fields _ it hitem
    obtain ⟨hpqu, hpq, hpun⟩ := stagePack_fields (stageCount (stageWV (pyStrip raw)))
    obtain ⟨hcqu, hcun⟩ := stageCount_preserve (stageWV (pyStrip raw))
    obtain ⟨hsqu, hsun⟩ := stageWV_shape (pyStrip raw)
    constructor
    · rw [hqu, hpqu, hcqu]
      exact hsqu
    · rcases hpun with h | ⟨w, hwmem, hwsome⟩
      · rw [hun, h, hcun]
        rcases hsun with h2 | ⟨v, u, hnum, hu, hsome⟩
        · exact Or.inl h2
        · refine Or.inr (Or.inl ⟨v, hnum, ?_⟩)
          rcases hu with h3 | h3
          · exact Or.inl (by rw [hsome, h3])
          · exact Or.inr (by rw [hsome, h3])
      · rw [hun]
        exact Or.inr (Or.inr ⟨w, hwmem, hwsome⟩)

theorem C10_item_unit_invariant_witness :
    (({ product_name := ("Juice".toList), quantity := 1, quantity_unit := ("unit".toList),
        unit := some ("1l".toList) } : InventoryItem).quantity_unit = ("g".toList) ∨
     ({ product_name := ("Juice".toList), quantity := 1, quantity_unit := ("unit".toList),
        unit := some ("1l".toList) } : InventoryItem).quantity_unit = ("unit".toList)) ∧
    (({ product_name := ("Juice".toList), quantity := 1, quantity_unit := ("unit".toList),
        unit := some ("1l".toList) } : InventoryItem).unit = none ∨
     (∃ v, isNumStr v = true ∧
        (({ product_name := ("Juice".toList), quantity := 1, quantity_unit := ("unit".toList),
            unit := some ("1l".toList) } : InventoryItem).unit = some (v ++ ("l".toList)) ∨
         ({ product_name := ("Juice".toList), quantity := 1, quantity_unit := ("unit".toList),
            unit := some ("1l".toList) } : InventoryItem).unit = some (v ++ ("ml".toList)))) ∨
     ∃ w, w ∈ _PACK_WORDS ∧
       ({ product_name := ("Juice".toList), quantity := 1, quantity_unit := ("unit".toList),
          unit := some ("1l".toList) } : InventoryItem).unit = some w) :=
  C10_item_unit_invariant ("Juice 1L".toList) 1
    [{ product_name := ("Juice".toList), quantity := 1, quantity_unit := ("unit".toList),
       unit := some ("1l".toList) }]
    []
    { product_name := ("Juice".toList), quantity := 1, quantity_unit := ("unit".toList),
      unit := some ("1l".toList) }
    (by decide) (by decide)

/-- C1 counterexample: on the line "2 Juice 1L" the weight extractor fails
and the volume extractor matches, yet the count extractor still overrides
the quantity: the parsed item has quantity 2, not 1, although a quantity
unit override was set by volume extraction. -/
theorem C1_counterexample :
    parse_receipt_text ("2 Juice 1L".toList) =
      .success 1 [{ product_name := ("Juice".toList), quantity := 2,
                    quantity_unit := ("unit".toList), unit := some ("1l".toList) }] [] ∧
    _extract_weight ("2 Juice 1L".toList) = none ∧
    _extract_volume ("2 Juice 1L".toList) ≠ none ∧
    (2 : ℚ) ≠ 1 :=
  ⟨by decide, by decide, by decide, by decide⟩

/-- C1 amended: the count override is gated only on quantity_unit still
being the unit string, and the volume extractor itself sets quantity_unit to
exactly that string, so a volume-matched line does not keep quantity 1: when
a count pattern matches the post-volume working text, the count quantity
overrides the quantity slot (only a weight match blocks the count
extractor). -/
theorem C1_amended_count_overrides_after_volume (line : List Char) (vr : VolumeRes)
    (cr : CountRes) (hw : _extract_weight line = none) (hv : _extract_volume line = some vr)
    (hc : _extract_count (pyReplace line vr.match0 ([' '])) = some cr) :
    (stageCount (stageWV line)).quantity = (cr.quantity : ℚ) := by
  obtain ⟨hq, hqu, _⟩ := _extract_volume_fields line vr hv
  have hwv := stageWV_volume line vr hw hv
  apply stageCount_override
  · rw [hwv]
    exact hc
  · rw [hwv]
    exact hqu

theorem C1_amended_count_overrides_after_volume_witness :
    (stageCount (stageWV ("2 Juice 1L".toList))).quantity =
      (({ quantity := 2, match0 := ("2 Juice  ".toList),
          rest := some ("Juice  ".toList) } : CountRes).quantity : ℚ) :=
  C1_amended_count_overrides_after_volume ("2 Juice 1L".toList)
    { quantity := 1, quantity_unit := ("unit".toList), unit := ("1l".toList),
      match0 := ("1L".toList) }
    { quantity := 2, match0 := ("2 Juice  ".toList), rest := some ("Juice  ".toList) }
    (by decide) (by decide) (by decide)

/-- C5 counterexample: on "pack pack apples" the code removes BOTH
occurrences of the matched keyword, so the emitted name is "Apples";
removing exactly the first textual occurrence, as the claim states, would
leave the name "Pack Apples". -/
theorem C5_counterexample :
    processLine ("pack pack apples".toList) =
      .item { product_name := ("Apples".toList), quantity := 1,
              quantity_unit := ("unit".toList), unit := some ("pack".toList) } ∧
    pyTitle (stripChars ([' ', '-'])
        (collapseWs (removeFirstOccurrenceSpec ("pack pack apples".toList)
          ("pack".toList) ([' '])))) = ("Pack Apples".toList) ∧
    ("Apples".toList) ≠ ("Pack Apples".toList) :=
  ⟨by decide, by decide, by decide⟩

/-- C5 amended: when no packaging unit is set yet, the pack-unit normaliser
matches the fixed keyword list case-insensitively by substring containment,
the first keyword in list order winning, and sets unit to that keyword; the
removal step then replaces EVERY case-sensitive occurrence of the lowercase
keyword in the working text with a space (Python str.replace), not just the
first occurrence, and occurrences differing in case are not removed. -/
theorem C5_amended_pack_unit (st : LineState) (w : List Char)
    (hu : st.unit = none) (hw : _extract_pack_unit st.working = some w) :
    stagePack st = { st with unit := some w, working := pyReplace st.working w ([' ']) } ∧
    ∃ pre post, _PACK_WORDS = pre ++ w :: post ∧ isSubstring w (lowerL st.working) = true ∧
      ∀ w2 ∈ pre, isSubstring w2 (lowerL st.working) = false := by
  refine ⟨stagePack_set st w hu hw, ?_⟩
  unfold _extract_pack_unit at hw
  exact findPackWord_first _PACK_WORDS (lowerL st.working) w hw

theorem C5_amended_pack_unit_witness :
    stagePack { working := ("pack pack apples".toList), quantity := 1,
                quantity_unit := ("unit".toList), unit := none } =
      { ({ working := ("pack pack apples".toList), quantity := 1,
           quantity_unit := ("unit".toList), unit := none } : LineState) with
        unit := some ("pack".toList),
        working := pyReplace ("pack pack apples".toList) ("pack".toList) ([' ']) } ∧
    ∃ pre post, _PACK_WORDS = pre ++ ("pack".toList) :: post ∧
      isSubstring ("pack".toList) (lowerL ("pack pack apples".toList)) = true ∧
      ∀ w2 ∈ pre, isSubstring w2 (lowerL ("pack pack apples".toList)) = false :=
  C5_amended_pack_unit
    { working := ("pack pack apples".toList), quantity := 1,
      quantity_unit := ("unit".toList), unit := none }
    ("pack".toList) rfl (by decide)

/-- C6 counterexample: the input line "  total  " is recorded in the skip
list as the stripped string "total", which is not character-for-character
equal to the line as it appeared in the input. -/
theorem C6_counterexample :
    parse_receipt_text ("  total  ".toList) = .success 0 [] [("total".toList)] ∧
    pySplitlines ("  total  ".toList) = [("  total  ".toList)] ∧
    ("total".toList) ≠ ("  total  ".toList) :=
  ⟨by decide, by decide, by decide⟩

/-- C6 amended: every entry of the skip list, from either skip path, is the
whitespace-stripped form of some input line (strip is applied to the raw
line before any recording), not necessarily the raw line verbatim. -/
theorem C6_amended_skipped_stripped (text : List Char) (c : Nat)
    (items : List InventoryItem) (skipped : List (List Char)) (s : List Char)
    (hp : parse_receipt_text text = .success c items skipped) (hs : s ∈ skipped) :
    ∃ raw, raw ∈ pySplitlines text ∧ s = pyStrip raw := by
  unfold parse_receipt_text at hp
  split at hp
  · cases hp
  · injection hp with h1 h2 h3
    subst h3
    exact parseLines_skipped _ s hs

theorem C6_amended_skipped_stripped_witness :
    ∃ raw, raw ∈ pySplitlines ("  total  ".toList) ∧ ("total".toList) = pyStrip raw :=
  C6_amended_skipped_stripped ("  total  ".toList) 0 [] [("total".toList)] ("total".toList)
    (by decide) (by decide)
